import Mathlib

/-!
Verification of the crowd-count-estimation repository.

The development shallowly embeds the Python sources:
  - `streamlit_UI.py`: the video-analysis producer/consumer pipeline
    (`api_worker`, the producer loop of `main`, and the cleanup drain);
  - `crowd_counter.py`: `CrowdCounter.count_people` and
    `CrowdCounter.count_multiple_images`;
  - `app.py`: `startup_event`, `predict_crowd_count` (the /predict handler)
    and `predict_batch` (the /predict-batch handler);
  - `test_accuracy.py`: `evaluate_dataset` and the CSV-writing loop of `main`.

Machine floats are modelled by rationals; image contents are abstracted to
the density map the external LWCC network would produce for them, given by
an oracle `String → Option DensityMap` (`none` models the inference call
raising an exception).
-/

/-- A density map: the 2-D array produced by the inference library.
Each cell's value is the estimated local crowd density. -/
abbrev DensityMap := List (List ℚ)

/-- Sum of all cells of a density map. -/
def sumCells (d : DensityMap) : ℚ := (d.map fun row => row.sum).sum

/-- Modelled from the spec: the external LWCC library's
`LWCC.get_count(image_path, model=..., return_density=True)`.
The library is absent from the sources (it is an external pre-trained-model
library, treated as an opaque black box); the spec's glossary states that the
density map is a 2-D array "summed to obtain the count". The oracle `dm`
gives the density map the network produces for an image path, `none` when
the inference call raises. On success the call returns the pair
(sum of the density map's cells, density map). -/
def LWCC_get_count_density (dm : String → Option DensityMap) (image_path : String) :
    Option (ℚ × DensityMap) :=
  (dm image_path).map fun d => (sumCells d, d)

/-- Modelled from the spec: `LWCC.get_count(image_path, model=...)` without
`return_density`; returns only the count (the sum of the density map). -/
def LWCC_get_count_plain (dm : String → Option DensityMap) (image_path : String) :
    Option ℚ :=
  (dm image_path).map sumCells

/-- The value `CrowdCounter.count_people` returns on success
(crowd_counter.py lines 43-53): a bare count when `return_density_map` is
false, a (count, density_map) pair when it is true. -/
inductive CountResult
  | plain (count : ℚ)
  | withDensity (count : ℚ) (density_map : DensityMap)
deriving DecidableEq, Repr

/-- The count carried by a `CountResult` (either constructor's first field). -/
def CountResult.count : CountResult → ℚ
  | .plain c => c
  | .withDensity c _ => c

/-- Embedding of `CrowdCounter.count_people` (crowd_counter.py lines 31-56): calls
`LWCC.get_count`, returning the count (or the pair when
`return_density_map`), and `None` when the call raises. -/
def count_people (dm : String → Option DensityMap) (image_path : String)
    (return_density_map : Bool) : Option CountResult :=
  if return_density_map then
    match LWCC_get_count_density dm image_path with
    | some cd => some (.withDensity cd.1 cd.2)
    | none => none
  else
    match LWCC_get_count_plain dm image_path with
    | some c => some (.plain c)
    | none => none

/-- Embedding of `CrowdCounter.count_multiple_images` (crowd_counter.py lines 59-86):
a loop over the paths appending one result per image, the whole body wrapped
in a single try/except, so an exception on any image makes the whole call
return `None`. -/
def count_multiple_images (dm : String → Option DensityMap)
    (image_paths : List String) (return_density_map : Bool) :
    Option (List CountResult) :=
  match image_paths with
  | [] => some []
  | p :: rest =>
    if return_density_map then
      match LWCC_get_count_density dm p with
      | none => none
      | some cd =>
        (count_multiple_images dm rest return_density_map).map
          (CountResult.withDensity cd.1 cd.2 :: ·)
    else
      match LWCC_get_count_plain dm p with
      | none => none
      | some c =>
        (count_multiple_images dm rest return_density_map).map
          (CountResult.plain c :: ·)

/-!
## The video-analysis pipeline (streamlit_UI.py)
-/

/-- An item the producer puts on the task queue (streamlit_UI.py line 224):
the pair `(timestamp, img_byte_arr)`. The frame's image bytes are abstracted
by the index of the frame they were read from, which determines them. -/
abbrev FrameTask := ℚ × Nat

/-- What one `requests.post` to /predict from the worker can yield
(streamlit_UI.py lines 92-102): an HTTP response with a status code and the
`estimated_count` field of its JSON body when present, or a raised
exception. -/
inductive ApiResponse
  | http (status : Nat) (estimatedCount : Option ℚ)
  | exn (msg : String)

/-- What the worker puts on the result queue (streamlit_UI.py lines
94-102): a success record with timestamp and count, or an error record with
timestamp and message. -/
inductive ResultRecord
  | ok (time count : ℚ)
  | fail (time : ℚ) (msg : String)
deriving DecidableEq, Repr

/-- The body of `api_worker` for one dequeued task (streamlit_UI.py lines
87-102): on HTTP 200 a success record carrying `data.get("estimated_count", 0)`,
on another status an `API <status>` error record, on a raised exception an
error record with the exception text. `respond` gives the API's behaviour on
each request. -/
def handleTask (respond : FrameTask → ApiResponse) (t : FrameTask) : ResultRecord :=
  match respond t with
  | .http 200 c => .ok t.1 (c.getD 0)
  | .http s _ => .fail t.1 ("API " ++ toString s)
  | .exn m => .fail t.1 m

/-- The `api_worker` loop (streamlit_UI.py lines 77-104) run over the
sequence of items it will dequeue (`none` is the sentinel `None`). Returns
the result records it enqueues, in order, and whether it reached the
`break`: on the sentinel it breaks at once, on a task it handles it and
loops, and on an exhausted sequence it is still blocked in
`task_queue.get()` (no break). -/
def apiWorkerRun (respond : FrameTask → ApiResponse) :
    List (Option FrameTask) → List ResultRecord × Bool
  | [] => ([], false)
  | none :: _ => ([], true)
  | some t :: rest =>
    let o := apiWorkerRun respond rest
    (handleTask respond t :: o.1, o.2)

/-- The producer loop of `main` (streamlit_UI.py lines 197-238), with the
UI updates stripped: reading `remaining` more frames starting at index
`current_frame`, it enqueues `(current_frame / fps, current_frame)` exactly
when `current_frame % frames_to_process == 0`, and returns the enqueued
tasks in order. -/
def producerLoop (remaining current_frame frames_to_process : Nat) (fps : ℚ) :
    List FrameTask :=
  match remaining with
  | 0 => []
  | r + 1 =>
    (if current_frame % frames_to_process = 0
      then [((current_frame : ℚ) / fps, current_frame)] else [])
      ++ producerLoop r (current_frame + 1) frames_to_process fps

/-!
## A small-step interleaving model of the whole pipeline run

The main thread (streamlit_UI.py lines 196-279) enqueues the selected
frames, then the sentinel `None` (line 250), and drains the result queue,
both during the producer loop (lines 228-235) and in the cleanup (lines
253-271, which loops while the worker is alive and then empties the
queue).  The worker thread (`api_worker`) concurrently dequeues tasks,
handles them, and stops on the sentinel.  A state records what each side
still has to do; a step is one queue operation by either thread.  The
assumption that every inference request returns is built in: handling a
task is one (atomic) step.
-/

/-- A snapshot of the pipeline: the tasks the producer has yet to enqueue,
whether the sentinel is still to be put (line 250), the task queue's
contents, whether the worker has hit `break`, the result queue's contents,
and the results the main thread has taken off the result queue, in order. -/
structure PipeState where
  toEnqueue : List FrameTask
  sentinelPending : Bool
  taskQ : List (Option FrameTask)
  workerStopped : Bool
  resultQ : List ResultRecord
  drained : List ResultRecord
deriving DecidableEq, Repr

/-- The initial state of a run that will enqueue `ts`: both queues empty,
sentinel still to be sent, worker running. -/
def pipeInit (ts : List FrameTask) : PipeState :=
  { toEnqueue := ts, sentinelPending := true, taskQ := [], workerStopped := false,
    resultQ := [], drained := [] }

/-- One interleaved step of the pipeline.  `enqueue` is `task_queue.put`
(line 224); `putSentinel` is `task_queue.put(None)` (line 250), which the
main thread reaches only after the producer loop; `workerProcess` is one
worker iteration on a task (get, post, put result, lines 83-104);
`workerStop` is the worker dequeuing the sentinel and breaking (lines
84-85); `drain` is the main thread taking one record off the result queue
(lines 228-235, 253-271). -/
inductive PipeStep (respond : FrameTask → ApiResponse) : PipeState → PipeState → Prop
  | enqueue (t : FrameTask) (ts : List FrameTask) (s : PipeState)
      (h : s.toEnqueue = t :: ts) :
      PipeStep respond s { s with toEnqueue := ts, taskQ := s.taskQ ++ [some t] }
  | putSentinel (s : PipeState) (h1 : s.toEnqueue = []) (h2 : s.sentinelPending = true) :
      PipeStep respond s { s with sentinelPending := false, taskQ := s.taskQ ++ [none] }
  | workerProcess (t : FrameTask) (q : List (Option FrameTask)) (s : PipeState)
      (h1 : s.workerStopped = false) (h2 : s.taskQ = some t :: q) :
      PipeStep respond s
        { s with taskQ := q, resultQ := s.resultQ ++ [handleTask respond t] }
  | workerStop (q : List (Option FrameTask)) (s : PipeState)
      (h1 : s.workerStopped = false) (h2 : s.taskQ = none :: q) :
      PipeStep respond s { s with taskQ := q, workerStopped := true }
  | drain (x : ResultRecord) (q : List ResultRecord) (s : PipeState)
      (h : s.resultQ = x :: q) :
      PipeStep respond s { s with resultQ := q, drained := s.drained ++ [x] }

/-- The reachable states of a run on tasks `ts`. -/
def PipeReachable (respond : FrameTask → ApiResponse) (ts : List FrameTask)
    (s : PipeState) : Prop :=
  Relation.ReflTransGen (PipeStep respond) (pipeInit ts) s

/-- The tasks sitting in the task queue (the sentinel carries none). -/
def queuedTasks (q : List (Option FrameTask)) : List FrameTask :=
  q.filterMap id

/-- The run invariant.  First conjunct: every task's result is in exactly
one place — already drained, on the result queue, in the task queue, or
still with the producer — and concatenating these in drain order gives one
result per task of `ts`, in task order.  Second conjunct: the phases of the
sentinel protocol — before `put(None)` the task queue holds only real
tasks; after it and before the worker consumes it, the producer is done and
the sentinel is the last queue item; after the worker consumes it, the task
queue is empty. -/
def PipeInv (respond : FrameTask → ApiResponse) (ts : List FrameTask)
    (s : PipeState) : Prop :=
  (s.drained ++ s.resultQ ++ (queuedTasks s.taskQ).map (handleTask respond)
      ++ s.toEnqueue.map (handleTask respond) = ts.map (handleTask respond)) ∧
  ((s.sentinelPending = true ∧ s.workerStopped = false ∧
      ∃ l : List FrameTask, s.taskQ = l.map some) ∨
   (s.sentinelPending = false ∧ s.workerStopped = false ∧ s.toEnqueue = [] ∧
      ∃ l : List FrameTask, s.taskQ = l.map some ++ [none]) ∨
   (s.sentinelPending = false ∧ s.workerStopped = true ∧ s.toEnqueue = [] ∧
      s.taskQ = []))

theorem queuedTasks_append_some (q : List (Option FrameTask)) (t : FrameTask) :
    queuedTasks (q ++ [some t]) = queuedTasks q ++ [t] := by
  simp [queuedTasks]

theorem queuedTasks_append_none (q : List (Option FrameTask)) :
    queuedTasks (q ++ [none]) = queuedTasks q := by
  simp [queuedTasks]

theorem queuedTasks_cons_some (q : List (Option FrameTask)) (t : FrameTask) :
    queuedTasks (some t :: q) = t :: queuedTasks q := by
  simp [queuedTasks]

theorem queuedTasks_cons_none (q : List (Option FrameTask)) :
    queuedTasks (none :: q) = queuedTasks q := by
  simp [queuedTasks]

theorem pipeInv_preserved (respond : FrameTask → ApiResponse) (ts : List FrameTask)
    {s s' : PipeState} (hinv : PipeInv respond ts s) (hstep : PipeStep respond s s') :
    PipeInv respond ts s' := by
  obtain ⟨heq, hphase⟩ := hinv
  cases hstep with
  | enqueue t rest s h =>
    rw [h] at heq
    refine ⟨?_, ?_⟩
    · simpa [queuedTasks_append_some, List.append_assoc] using heq
    · rcases hphase with ⟨p1, p2, l, hl⟩ | ⟨p1, p2, p3, l, hl⟩ | ⟨p1, p2, p3, p4⟩
      · exact Or.inl ⟨p1, p2, l ++ [t], by simp [hl]⟩
      · rw [h] at p3; cases p3
      · rw [h] at p3; cases p3
  | putSentinel s h1 h2 =>
    refine ⟨?_, ?_⟩
    · simpa [queuedTasks_append_none] using heq
    · rcases hphase with ⟨p1, p2, l, hl⟩ | ⟨p1, p2, p3, l, hl⟩ | ⟨p1, p2, p3, p4⟩
      · exact Or.inr (Or.inl ⟨rfl, p2, h1, l, by simp [hl]⟩)
      · rw [p1] at h2; cases h2
      · rw [p1] at h2; cases h2
  | workerProcess t q s h1 h2 =>
    rw [h2] at heq
    refine ⟨?_, ?_⟩
    · simpa [queuedTasks_cons_some, List.append_assoc] using heq
    · rcases hphase with ⟨p1, p2, l, hl⟩ | ⟨p1, p2, p3, l, hl⟩ | ⟨p1, p2, p3, p4⟩
      · rw [hl] at h2
        cases l with
        | nil => cases h2
        | cons a l' =>
          simp only [List.map_cons, List.cons.injEq] at h2
          exact Or.inl ⟨p1, p2, l', h2.2.symm⟩
      · rw [hl] at h2
        cases l with
        | nil => simp at h2
        | cons a l' =>
          simp only [List.map_cons, List.cons_append, List.cons.injEq] at h2
          exact Or.inr (Or.inl ⟨p1, p2, p3, l', h2.2.symm⟩)
      · rw [p2] at h1; cases h1
  | workerStop q s h1 h2 =>
    rw [h2] at heq
    refine ⟨?_, ?_⟩
    · simpa [queuedTasks_cons_none] using heq
    · rcases hphase with ⟨p1, p2, l, hl⟩ | ⟨p1, p2, p3, l, hl⟩ | ⟨p1, p2, p3, p4⟩
      · rw [hl] at h2
        exact absurd h2 (by cases l <;> simp)
      · rw [hl] at h2
        cases l with
        | nil =>
          simp only [List.map_nil, List.nil_append, List.cons.injEq] at h2
          exact Or.inr (Or.inr ⟨p1, rfl, p3, h2.2.symm⟩)
        | cons a l' => simp at h2
      · rw [p2] at h1; cases h1
  | drain x q s h =>
    rw [h] at heq
    refine ⟨?_, hphase⟩
    simpa [List.append_assoc] using heq

theorem pipeInv_init (respond : FrameTask → ApiResponse) (ts : List FrameTask) :
    PipeInv respond ts (pipeInit ts) := by
  refine ⟨by simp [pipeInit, queuedTasks], Or.inl ⟨rfl, rfl, [], rfl⟩⟩

theorem pipeInv_of_reachable (respond : FrameTask → ApiResponse) (ts : List FrameTask)
    {s : PipeState} (h : PipeReachable respond ts s) : PipeInv respond ts s := by
  induction h with
  | refl => exact pipeInv_init respond ts
  | tail _ hbc ih => exact pipeInv_preserved respond ts ih hbc

/-- C1: In the video-analysis pipeline, for every run in which the producer
enqueues finitely many frames and every inference request returns (each
worker iteration is one atomic step of the model), each enqueued frame
yields exactly one entry on the result queue — a success record with its
timestamp and count, or an error record — and the end-of-run cleanup drains
the result queue until the worker thread has exited and the result queue is
empty, so no frame's result is dropped: in every reachable state of the run
at which no thread has a step left, the worker has stopped, both queues are
empty, and the drained results are exactly one `handleTask` record per
enqueued task, in order. -/
theorem video_pipeline_delivers_every_result (respond : FrameTask → ApiResponse)
    (ts : List FrameTask) (s : PipeState)
    (hreach : PipeReachable respond ts s)
    (hquiet : ∀ s', ¬ PipeStep respond s s') :
    s.drained = ts.map (handleTask respond) ∧ s.workerStopped = true ∧
      s.resultQ = [] ∧ s.taskQ = [] := by
  obtain ⟨heq, hphase⟩ := pipeInv_of_reachable respond ts hreach
  have htoE : s.toEnqueue = [] := by
    cases hE : s.toEnqueue with
    | nil => rfl
    | cons t rest => exact absurd (PipeStep.enqueue t rest s hE) (hquiet _)
  have hres : s.resultQ = [] := by
    cases hR : s.resultQ with
    | nil => rfl
    | cons x q => exact absurd (PipeStep.drain x q s hR) (hquiet _)
  have hsent : s.sentinelPending = false := by
    cases hS : s.sentinelPending
    · rfl
    · exact absurd (PipeStep.putSentinel s htoE hS) (hquiet _)
  rcases hphase with ⟨p1, p2, l, hl⟩ | ⟨p1, p2, p3, l, hl⟩ | ⟨p1, p2, p3, p4⟩
  · rw [hsent] at p1; cases p1
  · cases l with
    | nil => exact absurd (PipeStep.workerStop [] s p2 (by simpa using hl)) (hquiet _)
    | cons t l' =>
      exact absurd
        (PipeStep.workerProcess t (l'.map some ++ [none]) s p2 (by simpa using hl))
        (hquiet _)
  · refine ⟨?_, p2, hres, p4⟩
    rw [htoE, hres, p4] at heq
    simpa [queuedTasks] using heq

/-- The API behaviour used by the concrete pipeline run below: every request
succeeds with HTTP 200 and estimated_count 5. -/
def respondOk5 : FrameTask → ApiResponse := fun _ => ApiResponse.http 200 (some 5)

/-- The single task of the concrete run below: frame 0, timestamp 0. -/
def wTask : FrameTask := ((0 : ℚ), 0)

/-- The quiescent final state of the concrete run below. -/
def pipeFinal : PipeState :=
  { toEnqueue := [], sentinelPending := false, taskQ := [], workerStopped := true,
    resultQ := [], drained := [ResultRecord.ok 0 5] }

theorem video_pipeline_delivers_every_result_witness :
    pipeFinal.drained = [wTask].map (handleTask respondOk5) ∧
      pipeFinal.workerStopped = true ∧ pipeFinal.resultQ = [] ∧ pipeFinal.taskQ = [] := by
  apply video_pipeline_delivers_every_result respondOk5 [wTask] pipeFinal
  · have e1 : PipeStep respondOk5 (pipeInit [wTask])
        { toEnqueue := [], sentinelPending := true, taskQ := [some wTask],
          workerStopped := false, resultQ := [], drained := [] } :=
      PipeStep.enqueue wTask [] (pipeInit [wTask]) rfl
    have e2 : PipeStep respondOk5
        { toEnqueue := [], sentinelPending := true, taskQ := [some wTask],
          workerStopped := false, resultQ := [], drained := [] }
        { toEnqueue := [], sentinelPending := false, taskQ := [some wTask, none],
          workerStopped := false, resultQ := [], drained := [] } :=
      PipeStep.putSentinel _ rfl rfl
    have e3 : PipeStep respondOk5
        { toEnqueue := [], sentinelPending := false, taskQ := [some wTask, none],
          workerStopped := false, resultQ := [], drained := [] }
        { toEnqueue := [], sentinelPending := false, taskQ := [none],
          workerStopped := false, resultQ := [ResultRecord.ok 0 5], drained := [] } :=
      PipeStep.workerProcess wTask [none] _ rfl rfl
    have e4 : PipeStep respondOk5
        { toEnqueue := [], sentinelPending := false, taskQ := [none],
          workerStopped := false, resultQ := [ResultRecord.ok 0 5], drained := [] }
        { toEnqueue := [], sentinelPending := false, taskQ := [],
          workerStopped := true, resultQ := [ResultRecord.ok 0 5], drained := [] } :=
      PipeStep.workerStop [] _ rfl rfl
    have e5 : PipeStep respondOk5
        { toEnqueue := [], sentinelPending := false, taskQ := [],
          workerStopped := true, resultQ := [ResultRecord.ok 0 5], drained := [] }
        pipeFinal :=
      PipeStep.drain (ResultRecord.ok 0 5) [] _ rfl
    exact Relation.ReflTransGen.tail
      (Relation.ReflTransGen.tail
        (Relation.ReflTransGen.tail
          (Relation.ReflTransGen.tail
            (Relation.ReflTransGen.tail Relation.ReflTransGen.refl e1) e2) e3) e4) e5
  · intro s' hs
    cases hs <;> simp_all [pipeFinal]

/-- The task the producer builds for frame index `i` (streamlit_UI.py lines
218-224): timestamp `current_frame / fps` and the frame. -/
def frameTaskOf (fps : ℚ) (i : Nat) : FrameTask := ((i : ℚ) / fps, i)

theorem producerLoop_eq (r c frames_to_process : Nat) (fps : ℚ) :
    producerLoop r c frames_to_process fps
      = ((List.range' c r).filter (fun i => i % frames_to_process = 0)).map
          (frameTaskOf fps) := by
  induction r generalizing c with
  | zero => simp [producerLoop]
  | succ n ih =>
    have hstep : producerLoop (n + 1) c frames_to_process fps
        = (if c % frames_to_process = 0 then [frameTaskOf fps c] else [])
          ++ producerLoop n (c + 1) frames_to_process fps := rfl
    rw [hstep, ih (c + 1), List.range'_succ, List.filter_cons]
    by_cases hc : c % frames_to_process = 0 <;> simp [hc]

/-- C2: The video-analysis producer enqueues exactly the frames whose
zero-based index is a multiple of `frames_to_process = int(fps * interval)`
(streamlit_UI.py lines 196-238): a frame index `i` read from the video is
put on the task queue, with timestamp `i / fps`, if and only if
`i % frames_to_process == 0`, and the enqueued tasks are exactly those, in
frame order and nothing else.  (`frames_to_process` is required positive:
with `frames_to_process = 0` the Python `%` would raise
`ZeroDivisionError` rather than enqueue anything.) -/
theorem producer_enqueues_exactly_interval_frames (numFrames frames_to_process : Nat)
    (fps : ℚ) (hftp : 0 < frames_to_process) :
    (∀ i : Nat, (frameTaskOf fps i ∈ producerLoop numFrames 0 frames_to_process fps
        ↔ (i < numFrames ∧ i % frames_to_process = 0)))
    ∧ producerLoop numFrames 0 frames_to_process fps
        = ((List.range numFrames).filter (fun i => i % frames_to_process = 0)).map
            (frameTaskOf fps) := by
  have hr : producerLoop numFrames 0 frames_to_process fps
      = ((List.range numFrames).filter (fun i => i % frames_to_process = 0)).map
          (frameTaskOf fps) := by
    rw [producerLoop_eq, List.range_eq_range']
  refine ⟨fun i => ?_, hr⟩
  rw [hr]
  constructor
  · intro hmem
    rw [List.mem_map] at hmem
    obtain ⟨j, hj, hfj⟩ := hmem
    rw [List.mem_filter, List.mem_range] at hj
    have hji : j = i := congrArg Prod.snd hfj
    subst hji
    exact ⟨hj.1, by simpa using hj.2⟩
  · rintro ⟨hlt, hmod⟩
    rw [List.mem_map]
    refine ⟨i, ?_, rfl⟩
    rw [List.mem_filter, List.mem_range]
    exact ⟨hlt, by simpa using hmod⟩

theorem producer_enqueues_exactly_interval_frames_witness :
    0 < 2 ∧ ((frameTaskOf 1 2 ∈ producerLoop 4 0 2 1) ↔ (2 < 4 ∧ 2 % 2 = 0)) :=
  ⟨by decide, (producer_enqueues_exactly_interval_frames 4 2 1 (by decide)).1 2⟩

/-- C3: The consumer thread stops via the sentinel (streamlit_UI.py lines
82-85): the `api_worker` loop reaches its `break` exactly when it dequeues
the sentinel `None`, the results it produces are exactly those of the items
strictly before the first sentinel (nothing after the sentinel is
processed), and on any finite task sequence ending with `None` it
terminates. -/
theorem api_worker_stops_on_sentinel (respond : FrameTask → ApiResponse)
    (items : List (Option FrameTask)) (pre : List FrameTask) :
    ((apiWorkerRun respond items).2 = true ↔ none ∈ items)
    ∧ (apiWorkerRun respond items).1
        = (queuedTasks (items.takeWhile fun o => o.isSome)).map (handleTask respond)
    ∧ (apiWorkerRun respond (pre.map some ++ [none])).2 = true := by
  refine ⟨?_, ?_, ?_⟩
  · induction items with
    | nil => simp [apiWorkerRun]
    | cons o rest ih =>
      cases o with
      | none => simp [apiWorkerRun]
      | some t => simpa [apiWorkerRun] using ih
  · induction items with
    | nil => simp [apiWorkerRun, queuedTasks]
    | cons o rest ih =>
      cases o with
      | none => simp [apiWorkerRun, queuedTasks]
      | some t => simp [apiWorkerRun, List.takeWhile_cons, queuedTasks_cons_some, ih]
  · induction pre with
    | nil => simp [apiWorkerRun]
    | cons t rest ih => simpa [apiWorkerRun] using ih

/-!
## C4: the task queue's capacity
-/

/-- The task queue construction (streamlit_UI.py line 175):
`queue.Queue()` with no argument, i.e. Python's default `maxsize = 0`. -/
def taskQueueMaxsize : Int := 0

/-- Python `queue.Queue` semantics (the stdlib queue module): a queue
enforces a finite capacity exactly when `0 < maxsize`; with `maxsize <= 0`
the queue is infinite and `put` never blocks for space. -/
def queueCapacity (maxsize : Int) : Option Nat :=
  if maxsize ≤ 0 then none else some maxsize.toNat

/-- Counterexample to C4: the task queue connecting the producer to the
consumer is created as `queue.Queue()` with the default `maxsize = 0`, so
it enforces no fixed capacity at all — it is unbounded. -/
theorem task_queue_has_no_fixed_capacity : queueCapacity taskQueueMaxsize = none := by
  decide

theorem queuedTasks_map_some (l : List FrameTask) : queuedTasks (l.map some) = l := by
  simp [queuedTasks]

/-- C4 amended: the task queue is unbounded — `queue.Queue()` is constructed
with the default `maxsize = 0`, which enforces no fixed capacity — and in
every reachable state of a run its occupancy is bounded only by the input:
at most the number of enqueued frames plus one for the sentinel. -/
theorem task_queue_unbounded_with_run_bound (respond : FrameTask → ApiResponse)
    (ts : List FrameTask) (s : PipeState) (hreach : PipeReachable respond ts s) :
    queueCapacity taskQueueMaxsize = none ∧ s.taskQ.length ≤ ts.length + 1 := by
  refine ⟨by decide, ?_⟩
  obtain ⟨heq, hphase⟩ := pipeInv_of_reachable respond ts hreach
  have hlen := congrArg List.length heq
  simp only [List.length_append, List.length_map] at hlen
  rcases hphase with ⟨_, _, l, hl⟩ | ⟨_, _, _, l, hl⟩ | ⟨_, _, _, h4⟩
  · rw [hl] at hlen ⊢
    rw [queuedTasks_map_some] at hlen
    simp only [List.length_map]
    omega
  · rw [hl] at hlen ⊢
    rw [queuedTasks_append_none, queuedTasks_map_some] at hlen
    simp only [List.length_append, List.length_map, List.length_singleton]
    omega
  · rw [h4]
    simp

theorem task_queue_unbounded_with_run_bound_witness :
    queueCapacity taskQueueMaxsize = none
      ∧ (pipeInit [wTask]).taskQ.length ≤ [wTask].length + 1 :=
  task_queue_unbounded_with_run_bound respondOk5 [wTask] (pipeInit [wTask])
    Relation.ReflTransGen.refl

/-!
## C5: failure handling at API startup (app.py)
-/

/-- The model configurations `startup_event` tries, in order
(app.py lines 47-52). -/
def model_configs : List (String × String) :=
  [("DM-Count", "SHA"), ("CSRNet", "SHA"), ("SFANet", "SHA"), ("CSRNet", "SHB")]

/-- The for-loop of `startup_event` (app.py lines 54-67): try each
configuration in order; `ld c = true` means constructing the counter and
calling `load_model` left a non-None model, `ld c = false` that the attempt
raised (caught, logged, `continue`) or left the model None.  Returns the
first configuration that loads. -/
def startupTryConfigs (ld : String × String → Bool) :
    List (String × String) → Option (String × String)
  | [] => none
  | c :: rest => if ld c then some c else startupTryConfigs ld rest

/-- Embedding of `startup_event` (app.py lines 39-74): the configuration that ended up
loaded, if any, and the final value of the `model_loaded` flag. -/
def startup_event (ld : String × String → Bool) : Option (String × String) × Bool :=
  match startupTryConfigs ld model_configs with
  | some c => (some c, true)
  | none => (none, false)

/-- The load behaviour refuting C5: loading fails for the first
configuration (DM-Count, SHA) and succeeds for (CSRNet, SHA). -/
def loadFailsFirst : String × String → Bool := fun c => c == ("CSRNet", "SHA")

/-- Counterexample to C5: when loading the first model configuration fails
during API startup, the code does try an alternative: with a loader that
fails on (DM-Count, SHA) and succeeds on (CSRNet, SHA), `startup_event`
falls back to and loads (CSRNet, SHA), setting `model_loaded`. -/
theorem startup_does_fall_back :
    loadFailsFirst ("DM-Count", "SHA") = false
      ∧ startup_event loadFailsFirst = (some ("CSRNet", "SHA"), true) := by
  decide

theorem startupTryConfigs_eq_find (ld : String × String → Bool)
    (cs : List (String × String)) : startupTryConfigs ld cs = cs.find? ld := by
  induction cs with
  | nil => rfl
  | cons c rest ih =>
    by_cases h : ld c = true <;> simp [startupTryConfigs, List.find?_cons, h, ih]

/-- C5 amended: the program's failure handling is catch-and-log, except
that API startup does fall back across model configurations: when a
configuration fails to load, `startup_event` tries, in order, the four
configurations of `model_configs`, loads the first that succeeds and sets
`model_loaded` exactly when some configuration succeeds; elsewhere there is
no recovery — in particular `CrowdCounter.count_people` catches an
inference exception, logs it, and returns None with no retry and no
fallback. -/
theorem startup_falls_back_count_people_does_not (ld : String × String → Bool)
    (dm : String → Option DensityMap) (img : String) (rdm : Bool) :
    (startup_event ld).1 = model_configs.find? ld
    ∧ ((startup_event ld).2 = true ↔ ∃ c ∈ model_configs, ld c = true)
    ∧ (count_people dm img rdm = none ↔ dm img = none) := by
  refine ⟨?_, ?_, ?_⟩
  · rw [startup_event, startupTryConfigs_eq_find]
    cases model_configs.find? ld <;> rfl
  · rw [startup_event, startupTryConfigs_eq_find]
    cases h : model_configs.find? ld with
    | none =>
      simp only [List.find?_eq_none] at h
      simpa using h
    | some c =>
      have := List.find?_some h
      have hmem := List.mem_of_find?_eq_some h
      simp only []
      constructor
      · intro _; exact ⟨c, hmem, this⟩
      · intro _; trivial
  · cases rdm
      <;> cases h : dm img
      <;> simp [count_people, LWCC_get_count_plain, LWCC_get_count_density, h]

/-!
## C6: the count returned with a density map
-/

/-- C6: For every successful inference that returns a density map —
`count_people` called with `return_density_map=True` (crowd_counter.py
lines 43-53) — the density map is a 2-D array (a `DensityMap`) and the
returned count equals the sum of all cells of that density map.
(`count_people` passes the LWCC pair through unchanged; that the library's
count is the sum of the density map's cells is the spec-modelled part.) -/
theorem count_with_density_is_sum_of_cells (dm : String → Option DensityMap)
    (img : String) (c : ℚ) (d : DensityMap)
    (h : count_people dm img true = some (.withDensity c d)) :
    c = sumCells d := by
  cases hdm : dm img with
  | none => simp [count_people, LWCC_get_count_density, hdm] at h
  | some d0 =>
    simp only [count_people, LWCC_get_count_density, hdm, Option.map_some',
      if_true, Option.some.injEq, CountResult.withDensity.injEq] at h
    obtain ⟨h1, h2⟩ := h
    subst h2
    exact h1.symm

/-- The concrete density map of the C6 witness run. -/
def dmapW : DensityMap := [[1, 2], [3]]

theorem count_with_density_is_sum_of_cells_witness :
    count_people (fun _ => some dmapW) "img.jpg" true
        = some (.withDensity 6 dmapW)
      ∧ (6 : ℚ) = sumCells dmapW := by
  have hcp : count_people (fun _ => some dmapW) "img.jpg" true
      = some (.withDensity 6 dmapW) := by
    simp only [count_people, LWCC_get_count_density, Option.map_some', if_true,
      Option.some.injEq, CountResult.withDensity.injEq]
    norm_num [sumCells, dmapW]
  exact ⟨hcp,
    count_with_density_is_sum_of_cells (fun _ => some dmapW) "img.jpg" 6 dmapW hcp⟩

/-!
## C7: the batch-accuracy script (test_accuracy.py)
-/

/-- One row of `count_estimation_results.csv` (test_accuracy.py lines
32-37, 60-63): the four fields written for each evaluated pair. -/
structure EvalRow where
  image : String
  predicted : ℚ
  actual : Nat
  accuracy : ℚ
deriving DecidableEq, Repr

/-- The accuracy formula of test_accuracy.py line 31:
`100 * (1 - abs(predicted_count - actual_count) / actual_count) if
actual_count else 0`. -/
def accuracyOf (predicted : ℚ) (actual : Nat) : ℚ :=
  if actual = 0 then 0
  else 100 * (1 - |predicted - (actual : ℚ)| / (actual : ℚ))

/-- Embedding of `evaluate_dataset` (test_accuracy.py lines 25-38) over its pairs, each
already reduced to (image path, ground-truth count read from the .mat
file): predict with `model.count_people`, compute the accuracy, append one
row.  Were `count_people` to return None, line 31's arithmetic on None
would raise and abort the whole evaluation: modelled as `none`. -/
def evaluate_dataset (dm : String → Option DensityMap) :
    List (String × Nat) → Option (List EvalRow)
  | [] => some []
  | (img, actual) :: rest =>
    match count_people dm img false with
    | some (.plain p) =>
      (evaluate_dataset dm rest).map
        ({ image := img, predicted := p, actual := actual,
           accuracy := accuracyOf p actual } :: ·)
    | _ => none

/-- The CSV write of `main` (test_accuracy.py lines 58-63): the header
then one line per result row, in order. -/
def writeCsv (rows : List EvalRow) : List (List String) :=
  ["image", "predicted", "actual", "accuracy"]
    :: rows.map (fun r =>
        [r.image, toString r.predicted, toString r.actual, toString r.accuracy])

/-- The row `evaluate_dataset` produces for the pair `pr` when inference
succeeds on it. -/
def evalRowOf (dm : String → Option DensityMap) (pr : String × Nat) : EvalRow :=
  { image := pr.1, predicted := sumCells ((dm pr.1).getD []), actual := pr.2,
    accuracy := accuracyOf (sumCells ((dm pr.1).getD [])) pr.2 }

/-- C7: For every image/ground-truth pair it evaluates (all predictions
succeeding), the batch-accuracy script produces exactly one row per pair,
in evaluation order, with fields image, predicted, actual and accuracy,
where accuracy is `100 * (1 - |predicted - actual| / actual)` for a nonzero
actual count and 0 for a zero actual count (`accuracyOf`), and the CSV
written is the header line plus exactly these rows in that order. -/
theorem batch_accuracy_rows (dm : String → Option DensityMap)
    (pairs : List (String × Nat))
    (h : ∀ p ∈ pairs, (dm p.1).isSome = true) :
    evaluate_dataset dm pairs = some (pairs.map (evalRowOf dm))
    ∧ (writeCsv (pairs.map (evalRowOf dm))).length = pairs.length + 1 := by
  refine ⟨?_, by simp [writeCsv]⟩
  induction pairs with
  | nil => rfl
  | cons pr rest ih =>
    obtain ⟨img, actual⟩ := pr
    have hhead : (dm img).isSome = true := h (img, actual) (by simp)
    obtain ⟨d, hd⟩ := Option.isSome_iff_exists.mp hhead
    have htail := ih (fun p hp => h p (List.mem_cons_of_mem _ hp))
    have hcp : count_people dm img false = some (.plain (sumCells d)) := by
      simp [count_people, LWCC_get_count_plain, hd]
    simp only [evaluate_dataset, hcp, htail, Option.map_some, List.map_cons]
    simp [evalRowOf, hd]

theorem batch_accuracy_rows_witness :
    evaluate_dataset (fun _ => some [[(1 : ℚ), 2]]) [("a.jpg", 2), ("b.jpg", 0)]
      = some [{ image := "a.jpg", predicted := 3, actual := 2, accuracy := 50 },
              { image := "b.jpg", predicted := 3, actual := 0, accuracy := 0 }] := by
  have h := (batch_accuracy_rows (fun _ => some [[(1 : ℚ), 2]])
      [("a.jpg", 2), ("b.jpg", 0)] (by intro p _; rfl)).1
  rw [h]
  norm_num [evalRowOf, accuracyOf, sumCells]

/-!
## C8: the error contract of CrowdCounter (crowd_counter.py)
-/

theorem count_multiple_images_eq_mapM (dm : String → Option DensityMap)
    (paths : List String) (rdm : Bool) :
    count_multiple_images dm paths rdm = paths.mapM (fun p => count_people dm p rdm) := by
  induction paths with
  | nil => rfl
  | cons p rest ih =>
    rw [List.mapM_cons, ← ih]
    cases rdm
      <;> cases hp : dm p
      <;> simp [count_multiple_images, count_people, LWCC_get_count_plain,
            LWCC_get_count_density, hp, Option.map_eq_bind]

theorem count_multiple_images_isSome (dm : String → Option DensityMap)
    (paths : List String) (rdm : Bool) :
    (count_multiple_images dm paths rdm).isSome = true
      ↔ ∀ p ∈ paths, (dm p).isSome = true := by
  induction paths with
  | nil => simp [count_multiple_images]
  | cons p rest ih =>
    cases rdm
      <;> cases hp : dm p
      <;> simp [count_multiple_images, LWCC_get_count_plain, LWCC_get_count_density,
            hp, ih]

/-- C8: `CrowdCounter.count_people` returns None exactly when the inference
call raises (crowd_counter.py lines 54-56); otherwise it returns a bare
count when `return_density_map` is false (lines 51-53) and a
(count, density_map) pair when it is true (lines 44-50).
`count_multiple_images` (lines 59-86) returns None when any image in the
list fails, and otherwise one result per input path, in input order — it
behaves as `mapM` of the single-image call. -/
theorem crowd_counter_error_contract (dm : String → Option DensityMap)
    (img : String) (rdm : Bool) (paths : List String) :
    (count_people dm img rdm = none ↔ dm img = none)
    ∧ count_people dm img false = (dm img).map (fun d => CountResult.plain (sumCells d))
    ∧ count_people dm img true
        = (dm img).map (fun d => CountResult.withDensity (sumCells d) d)
    ∧ count_multiple_images dm paths rdm
        = paths.mapM (fun p => count_people dm p rdm)
    ∧ ((count_multiple_images dm paths rdm).isSome = true
        ↔ ∀ p ∈ paths, (dm p).isSome = true) := by
  refine ⟨?_, ?_, ?_, count_multiple_images_eq_mapM dm paths rdm,
    count_multiple_images_isSome dm paths rdm⟩
  · cases rdm
      <;> cases h : dm img
      <;> simp [count_people, LWCC_get_count_plain, LWCC_get_count_density, h]
  · cases h : dm img
      <;> simp [count_people, LWCC_get_count_plain, h]
  · cases h : dm img
      <;> simp [count_people, LWCC_get_count_density, h]

/-!
## The HTTP handlers of app.py

File names, extensions and rounding.
-/

/-- Python `str.lower()` restricted to ASCII (file extensions here are
ASCII). -/
def strLower (s : String) : String := String.mk (s.data.map Char.toLower)

/-- Python `str.rfind` for a single character on an exploded string: the
largest index holding `c`, if any. -/
def rfindChar : List Char → Char → Option Nat
  | [], _ => none
  | x :: xs, c =>
    match rfindChar xs c with
    | some i => some (i + 1)
    | none => if x = c then some 0 else none

/-- Python `os.path.splitext(p)[1]` (posixpath/genericpath `_splitext` with
`sep='/'`, `extsep='.'`): the extension starts at the last dot if that dot
lies after the last separator and some character of the basename before it
is not a dot (so dotfiles like `.bashrc` have no extension); otherwise the
extension is empty. -/
def splitextExt (p : String) : String :=
  let l := p.data
  let sepIndex : Int := match rfindChar l '/' with
    | some i => (i : Int)
    | none => -1
  let dotIndex : Int := match rfindChar l '.' with
    | some i => (i : Int)
    | none => -1
  if sepIndex < dotIndex then
    let dotN := dotIndex.toNat
    let nameStart := (sepIndex + 1).toNat
    if (List.range (dotN - nameStart)).any
        (fun k => l.getD (nameStart + k) '.' != '.') then
      String.mk (l.drop dotN)
    else ""
  else ""

/-- The extensions /predict and /predict-batch accept (app.py lines 178,
273). -/
def allowed_extensions : List String := [".jpg", ".jpeg", ".png", ".bmp", ".tiff"]

/-- The per-file validation of the upload handlers (app.py lines 174-185,
269-280): the filename is nonempty and the extension of the lower-cased
filename is allowed. -/
def validFilename (filename : String) : Bool :=
  filename != "" && allowed_extensions.contains (splitextExt (strLower filename))

/-- Round-half-to-even to an integer, the rounding Python's builtin
`round` performs (floats are modelled by rationals, so the binary
representation error of the decimal value is not modelled). -/
def roundHalfEven (q : ℚ) : ℤ :=
  let f := ⌊q⌋
  let r := q - (f : ℚ)
  if r < 1 / 2 then f
  else if 1 / 2 < r then f + 1
  else if f % 2 = 0 then f else f + 1

/-- Python `round(x, 2)` (app.py lines 215, 296). -/
def round2 (q : ℚ) : ℚ := (roundHalfEven (q * 100) : ℚ) / 100

/-- The outcome of the /predict-batch handler (app.py lines 243-310): a
raised `HTTPException` with its status code and detail, or a success whose
results carry, per uploaded file in input order, the filename and the
rounded count. -/
inductive BatchOutcome
  | httpError (status : Nat) (detail : String)
  | success (results : List (String × ℚ))
deriving DecidableEq, Repr

/-- The status code of a batch outcome, `none` on success. -/
def statusOf : BatchOutcome → Option Nat
  | .httpError s _ => some s
  | .success _ => none

/-- Embedding of `predict_batch` (app.py lines 243-310).  Checks, in the code order:
model loaded (503), at most 10 files (400), at least one file (400), each
file has a nonempty filename with an allowed extension — the first invalid
one raises 400; then saves the files (`save` maps a filename to the path
`save_uploaded_file` stores it at) and calls `count_multiple_images`; a
None result raises 500, and otherwise each file yields
`round(float(count), 2)` in input order.  The `finally` cleanup of saved
files does not affect the response. -/
def predict_batch (dm : String → Option DensityMap) (save : String → String)
    (model_loaded : Bool) (files : List String) : BatchOutcome :=
  if model_loaded = false then .httpError 503 "Model not loaded"
  else if 10 < files.length then .httpError 400 "Maximum 10 files allowed"
  else if files.length = 0 then .httpError 400 "No files provided"
  else
    match files.find? (fun f => !validFilename f) with
    | some f =>
      if f = "" then .httpError 400 "Invalid file provided"
      else .httpError 400
        ("File " ++ f ++ " has unsupported type " ++ splitextExt (strLower f))
    | none =>
      match count_multiple_images dm (files.map save) false with
      | none => .httpError 500 "Batch processing failed"
      | some rs =>
        .success ((files.zip rs).map (fun fr => (fr.1, round2 fr.2.count)))

theorem count_multiple_images_length (dm : String → Option DensityMap)
    (paths : List String) (rdm : Bool) (rs : List CountResult)
    (h : count_multiple_images dm paths rdm = some rs) : rs.length = paths.length := by
  induction paths generalizing rs with
  | nil =>
    simp only [count_multiple_images, Option.some.injEq] at h
    simp [← h]
  | cons p rest ih =>
    cases rdm
      <;> cases hp : dm p
      <;> simp only [count_multiple_images, LWCC_get_count_plain,
            LWCC_get_count_density, hp, Option.map_none', Option.map_some',
            Option.map_eq_some', Bool.false_eq_true, if_false, if_true,
            reduceCtorEq] at h
    · obtain ⟨rs', hrs', hcons⟩ := h
      simp [← hcons, ih rs' hrs']
    · obtain ⟨rs', hrs', hcons⟩ := h
      simp [← hcons, ih rs' hrs']

/-- C9: The /predict-batch endpoint (app.py lines 243-310) raises 503
whenever the model is not loaded; with the model loaded it raises 400
whenever more than 10 files are supplied, whenever zero files are supplied,
and whenever some file fails validation (empty filename or a lower-cased
extension outside the allowed set); and when every file validates and the
batch count succeeds it returns one result entry per uploaded file, in
input order, carrying the filename and the count rounded to 2 decimal
places. -/
theorem predict_batch_contract (dm : String → Option DensityMap)
    (save : String → String) (model_loaded : Bool) (files : List String) :
    (model_loaded = false → statusOf (predict_batch dm save model_loaded files) = some 503)
    ∧ (model_loaded = true → 10 < files.length →
        statusOf (predict_batch dm save model_loaded files) = some 400)
    ∧ (model_loaded = true → files = [] →
        statusOf (predict_batch dm save model_loaded files) = some 400)
    ∧ (model_loaded = true → files.length ≤ 10 → files ≠ [] →
        (∃ f ∈ files, validFilename f = false) →
        statusOf (predict_batch dm save model_loaded files) = some 400)
    ∧ (∀ rs, model_loaded = true → files.length ≤ 10 → files ≠ [] →
        (∀ f ∈ files, validFilename f = true) →
        count_multiple_images dm (files.map save) false = some rs →
        predict_batch dm save model_loaded files
          = .success ((files.zip rs).map (fun fr => (fr.1, round2 fr.2.count))))
    ∧ (∀ rs, count_multiple_images dm (files.map save) false = some rs →
        ((files.zip rs).map (fun fr => (fr.1, round2 fr.2.count))).length
          = files.length) := by
  refine ⟨?_, ?_, ?_, ?_, ?_, ?_⟩
  · intro h
    simp [predict_batch, h, statusOf]
  · intro h1 h2
    simp [predict_batch, h1, h2, statusOf]
  · intro h1 h2
    subst h2
    simp [predict_batch, h1, statusOf]
  · intro h1 h2 h3 hex
    obtain ⟨f, hf, hvf⟩ := hex
    have hlt : ¬ 10 < files.length := by omega
    have hne : ¬ files.length = 0 := by
      intro h0
      exact h3 (List.length_eq_zero.mp h0)
    cases hfind : files.find? (fun f => !validFilename f) with
    | none =>
      exfalso
      have hnone := List.find?_eq_none.mp hfind f hf
      simp [hvf] at hnone
    | some g =>
      by_cases hg : g = "" <;>
        simp [predict_batch, h1, hlt, hne, hfind, hg, statusOf]
  · intro rs h1 h2 h3 hall hcmi
    have hlt : ¬ 10 < files.length := by omega
    have hne : ¬ files.length = 0 := by
      intro h0
      exact h3 (List.length_eq_zero.mp h0)
    have hfind : files.find? (fun f => !validFilename f) = none := by
      rw [List.find?_eq_none]
      intro x hx
      simp [hall x hx]
    simp [predict_batch, h1, hlt, hne, hfind, hcmi]
  · intro rs hcmi
    have hlen : rs.length = files.length := by
      have := count_multiple_images_length dm (files.map save) false rs hcmi
      simpa using this
    simp [List.length_zip, hlen]

theorem predict_batch_contract_witness :
    statusOf (predict_batch (fun _ => some [[(1 : ℚ)]]) id false ["a.jpg"]) = some 503
    ∧ predict_batch (fun _ => some [[(1 : ℚ)]]) id true ["a.jpg"]
        = .success ((["a.jpg"].zip [CountResult.plain (sumCells [[(1 : ℚ)]])]).map
            (fun fr => (fr.1, round2 fr.2.count))) := by
  constructor
  · exact (predict_batch_contract (fun _ => some [[(1 : ℚ)]]) id false ["a.jpg"]).1 rfl
  · refine (predict_batch_contract (fun _ => some [[(1 : ℚ)]]) id true
      ["a.jpg"]).2.2.2.2.1 [CountResult.plain (sumCells [[(1 : ℚ)]])] rfl
      (by norm_num) (by simp) ?_ ?_
    · intro f hf
      rw [List.mem_singleton] at hf
      subst hf
      decide
    · simp [count_multiple_images, LWCC_get_count_plain]

/-- The outcome of the /predict handler (app.py lines 154-241): a raised
HTTPException's status code, or a success carrying the rounded count. -/
inductive PredictOutcome
  | ok (estimated_count : ℚ)
  | httpError (status : Nat)
deriving DecidableEq, Repr

/-- Embedding of `predict_crowd_count`, the /predict handler (app.py lines 154-241),
paired with its effect on the uploads directory, modelled as the list of
files present.  In the code's order: model loaded (else 503), nonempty
filename (else 400), allowed extension of the lower-cased filename (else
400); then the upload is saved at `save filename` (appended to the
uploads), `count_people(file_path, return_density_map=True)` runs, a None
result raises 500, and otherwise the response carries
`round(float(count), 2)`.  The `finally` block (lines 234-241) removes the
saved file if it exists, on the success path and on every error path after
the save; `os.remove` succeeding is assumed. -/
def predict_endpoint (dm : String → Option DensityMap) (save : String → String)
    (model_loaded : Bool) (filename : String) (uploads : List String) :
    PredictOutcome × List String :=
  if model_loaded = false then (.httpError 503, uploads)
  else if filename = "" then (.httpError 400, uploads)
  else if !(allowed_extensions.contains (splitextExt (strLower filename))) then
    (.httpError 400, uploads)
  else
    let file_path := save filename
    let uploads1 := uploads ++ [file_path]
    match count_people dm file_path true with
    | none => (.httpError 500, uploads1.erase file_path)
    | some r => (.ok (round2 r.count), uploads1.erase file_path)

/-- C10: For every /predict request, on the success path and on every error
path, a file saved to the uploads directory is removed before the handler
returns: provided the saved path is fresh (`save_uploaded_file` prefixes a
timestamp to make it unique), the uploads directory after the request holds
exactly the files it held before, so a completed request leaves no uploaded
file behind. -/
theorem predict_cleans_up_uploaded_file (dm : String → Option DensityMap)
    (save : String → String) (model_loaded : Bool) (filename : String)
    (uploads : List String) (hfresh : save filename ∉ uploads) :
    (predict_endpoint dm save model_loaded filename uploads).2 = uploads := by
  have herase : (uploads ++ [save filename]).erase (save filename) = uploads := by
    rw [List.erase_append_right _ hfresh, List.erase_cons_head, List.append_nil]
  by_cases h1 : model_loaded = false
  · simp [predict_endpoint, h1]
  · by_cases h2 : filename = ""
    · simp [predict_endpoint, h1, h2]
    · by_cases h3 : splitextExt (strLower filename) ∈ allowed_extensions
      · cases hcp : count_people dm (save filename) true with
        | none => simp [predict_endpoint, h1, h2, h3, hcp, herase]
        | some r => simp [predict_endpoint, h1, h2, h3, hcp, herase]
      · simp [predict_endpoint, h1, h2, h3]

theorem predict_cleans_up_uploaded_file_witness :
    (predict_endpoint (fun _ => some [[(1 : ℚ)]]) id true "a.jpg" []).2 = [] :=
  predict_cleans_up_uploaded_file (fun _ => some [[(1 : ℚ)]]) id true "a.jpg" []
    (by simp)
